import Mathlib

/-!
Verification of the orkestra-shared wire codec and plugin adapters
(`shared/interface.go`).

Modelling conventions (shallow embedding of the Go code):

* Opaque byte-slice blobs produced/consumed by `encoding/json` are modelled
  as `Option Json`: `none` is the empty (length-0) blob, `some j` is a
  non-empty blob holding the JSON text whose parse is `j`.  `json.Marshal`
  never produces an empty blob, and the literal text `null` parses to
  `Json.null`, so the Go test `string(b) != "null"` corresponds to the blob
  not being `some Json.null`.
* Go's `map[string]interface{}` is modelled as `Option (List (String × Json))`
  (`none` is the nil map); `interface{}` values restricted to the
  JSON-representable domain (null/bool/number/string/array/object) are
  modelled as `Json`.  On this domain `json.Marshal` always succeeds, so the
  encode-side error branches of the Go code are unreachable in the model;
  the `Except` plumbing of the source is kept.
* Go's `[]*Node` is modelled by the mutually inductive `NodePtrList` of
  `NodePtr` (`null` models a nil `*Node`).  Inductive trees are finite and
  acyclic by construction, which is exactly the documented invariant of the
  data model.
* Go errors are the inductive `GoErr`; `fmt.Errorf("...: %w", err)` is
  `GoErr.wrap`; a gRPC status error seen by the caller after a handler
  returned `e` is `GoErr.remote e.message`.
-/

/-- A JSON value: the dynamically-typed payload domain that Go's
`encoding/json` produces when decoding into `interface\x7b\x7d`
(null, bool, number, string, array, string-keyed object). -/
inductive Json where
| null
| bool (b : Bool)
| num (n : Int)
| str (s : String)
| arr (elems : List Json)
| obj (fields : List (String × Json))

/-- A Go `map[string]interface\x7b\x7d` payload: association list of fields. -/
abbrev JObj := List (String × Json)

/-- Go `error` values produced along the paths modelled here. -/
inductive GoErr where
| jsonTypeError (value : String) (target : String)
| jsonMalformed (msg : String)
| errorString (msg : String)
| wrap (pfx : String) (cause : GoErr)
| remote (msg : String)

/-- The `Error()` string of a `GoErr`. -/
def GoErr.message : GoErr → String
| .jsonTypeError v t => "json: cannot unmarshal " ++ v ++ " into Go value of type " ++ t
| .jsonMalformed m => m
| .errorString m => m
| .wrap p c => p ++ ": " ++ c.message
| .remote m => "rpc error: code = Unknown desc = " ++ m

/-- The context prefixes wrapped around an error by this codebase
(`fmt.Errorf` with `%w`), outermost first; the bare underlying cause
contributes nothing. -/
def errContexts : GoErr → List String
| .wrap p c => p :: errContexts c
| _ => []

/-- `shared.Retries`: the optional retry policy carried on a node. -/
structure Retries where
  Count : Int
  Delay : String

/-- `shared.ExecutionContext`.  `CurrentItem` is a Go `interface\x7b\x7d`
(any dynamic value); the three `*Data`/`Outputs` fields are
`map[string]interface\x7b\x7d` (`none` = nil map); `Secrets` is a
`map[string]string`, modelled as its association list. -/
structure ExecutionContext where
  TriggerData : Option JObj
  NodeOutputs : Option JObj
  Secrets : List (String × String)
  CurrentItem : Json
  FailureData : Option JObj

mutual
/-- `shared.Node`: a workflow step; `Do` and `OnFailure` are `[]*Node`. -/
inductive Node where
| mk (ID : String) (Uses : String) (With : Option JObj) (Needs : List String)
    (Do : NodePtrList) (Retries : Option Retries) (OnFailure : NodePtrList)
/-- A `*shared.Node`: nil or a pointer to a node. -/
inductive NodePtr where
| null
| ptr (node : Node)
/-- A `[]*shared.Node`. -/
inductive NodePtrList where
| nil
| cons (head : NodePtr) (tail : NodePtrList)
end

/-- The zero value `shared.Node\x7b\x7d` returned by `fromProtoNode(nil)`. -/
def zeroNode : Node := .mk "" "" none [] .nil none .nil

mutual
/-- `proto.Node`: the transport envelope; `With` and `Retries` are byte
blobs (`Option Json`), `Do`/`OnFailure` are `[]*proto.Node`. -/
inductive ProtoNode where
| mk (Id : String) (Uses : String) (With : Option Json) (Needs : List String)
    (Do : ProtoNodePtrList) (Retries : Option Json) (OnFailure : ProtoNodePtrList)
/-- A `*proto.Node`. -/
inductive ProtoNodePtr where
| null
| ptr (node : ProtoNode)
/-- A `[]*proto.Node`. -/
inductive ProtoNodePtrList where
| nil
| cons (head : ProtoNodePtr) (tail : ProtoNodePtrList)
end

/-- The `With` blob of a `proto.Node`. -/
def ProtoNode.With : ProtoNode → Option Json
| .mk _ _ w _ _ _ _ => w

/-- The `Retries` blob of a `proto.Node`. -/
def ProtoNode.Retries : ProtoNode → Option Json
| .mk _ _ _ _ _ r _ => r

/-- `proto.ExecutionContext`: four opaque blobs plus the native
`Secrets` string map. -/
structure ProtoExecutionContext where
  TriggerData : Option Json
  NodeOutputs : Option Json
  Secrets : List (String × String)
  CurrentItem : Option Json
  FailureData : Option Json

/-- `proto.ExecuteRequest`. -/
structure ProtoExecuteRequest where
  Node : ProtoNodePtr
  Context : ProtoExecutionContext

/-- `proto.ExecuteResponse`: the opaque result blob. -/
structure ProtoExecuteResponse where
  Result : Option Json

/-- `json.Marshal` of a `map[string]interface\x7b\x7d`: a nil map
serializes to the JSON text `null`, otherwise to the object. -/
def jsonOfOptObj : Option JObj → Json
| none => .null
| some kvs => .obj kvs

/-- `json.Marshal` of a `*shared.Retries`: a nil pointer serializes to the
literal `null`, a present policy to the tagged object with the `count`
and `delay` fields. -/
def marshalRetriesOpt : Option Retries → Json
| none => .null
| some r => .obj [("count", .num r.Count), ("delay", .str r.Delay)]

/-- The kind word `encoding/json` uses for a decoded value in an
`UnmarshalTypeError`. -/
def jsonKind : Json → String
| .null => "null"
| .bool _ => "bool"
| .num _ => "number"
| .str _ => "string"
| .arr _ => "array"
| .obj _ => "object"

/-- The Go type string of the map target in an `UnmarshalTypeError`. -/
def mapTargetType : String := "map[string]interface \x7b\x7d"

/-- `json.Unmarshal(blob, &with)` from `fromProtoNode`: there is no length
guard, so the empty blob is a syntax failure (`unexpected end of JSON
input`); `null` leaves the map nil; an object fills it; any other
top-level JSON value is an `UnmarshalTypeError`. -/
def decodeWithBlob : Option Json → Except GoErr (Option JObj)
| none => .error (.jsonMalformed "unexpected end of JSON input")
| some .null => .ok none
| some (.obj kvs) => .ok (some kvs)
| some j => .error (.jsonTypeError (jsonKind j) mapTargetType)

/-- One step of `json.Unmarshal` filling a `shared.Retries` struct from an
object field: keys matching the `count`/`delay` struct tags set the field
(the tags are matched exactly here; `encoding/json` additionally matches
case-insensitively, which no caller in this codebase relies on), `null`
is a no-op, a mistyped value is an `UnmarshalTypeError`, unknown keys
are ignored. -/
def setRetriesField (r : Retries) (k : String) (v : Json) : Except GoErr Retries :=
  if k == "count" then
    match v with
    | .null => .ok r
    | .num n => .ok { r with Count := n }
    | w => .error (.jsonTypeError (jsonKind w) "int")
  else if k == "delay" then
    match v with
    | .null => .ok r
    | .str s => .ok { r with Delay := s }
    | w => .error (.jsonTypeError (jsonKind w) "string")
  else .ok r

/-- `json.Unmarshal` folding all fields of a JSON object into a
`shared.Retries` (later duplicates overwrite earlier ones). -/
def unmarshalRetriesObj : List (String × Json) → Retries → Except GoErr Retries
| [], r => .ok r
| (k, v) :: rest, r => do
  let r2 ← setRetriesField r k v
  unmarshalRetriesObj rest r2

/-- The `Retries` branch of `fromProtoNode`: an empty blob or the literal
`null` text is special-cased to "no policy"; otherwise generic
`json.Unmarshal` into a `*shared.Retries` runs (an object allocates and
fills a policy, any other JSON value is an `UnmarshalTypeError`). -/
def decodeRetriesBlob : Option Json → Except GoErr (Option Retries)
| none => .ok none
| some .null => .ok none
| some (.obj kvs) => do
  let r ← unmarshalRetriesObj kvs { Count := 0, Delay := "" }
  .ok (some r)
| some j => .error (.jsonTypeError (jsonKind j) "shared.Retries")

/-- A context-field blob decode from `fromProtoExecutionContext`: guarded by
`len(b) > 0`, so the empty blob is skipped and the map stays nil; `null`
also leaves it nil; an object fills it; anything else is an
`UnmarshalTypeError`. -/
def decodeObjBlob : Option Json → Except GoErr (Option JObj)
| none => .ok none
| some .null => .ok none
| some (.obj kvs) => .ok (some kvs)
| some j => .error (.jsonTypeError (jsonKind j) mapTargetType)

mutual
/-- `toProtoNode`: nil in, nil out; otherwise marshal `With`, recursively
convert `Do`, marshal `Retries`, recursively convert `OnFailure`.  On the
modelled payload domain the marshals cannot fail, so the source's error
returns are unreachable; the `Except` shape of the signature is kept. -/
def toProtoNode : NodePtr → Except GoErr ProtoNodePtr
| .null => .ok .null
| .ptr (.mk i u w ne dl r onf) => do
  let dl2 ← toProtoNodeList dl
  let onf2 ← toProtoNodeList onf
  .ok (.ptr (.mk i u (some (jsonOfOptObj w)) ne dl2 (some (marshalRetriesOpt r)) onf2))
/-- The `for ... \x7b toProtoNode(...) \x7d` loops of `toProtoNode`: convert
each element (nil elements stay nil, as the converted nil is appended). -/
def toProtoNodeList : NodePtrList → Except GoErr ProtoNodePtrList
| .nil => .ok .nil
| .cons h t => do
  let h2 ← toProtoNode h
  let t2 ← toProtoNodeList t
  .ok (.cons h2 t2)
end

mutual
/-- `fromProtoNode`: nil envelope decodes to the zero node; otherwise the
`With` blob is unmarshalled (no emptiness guard), `Do` is decoded
recursively, the `Retries` blob with its sentinel special case, then
`OnFailure`.  The first failing step aborts with its error unchanged. -/
def fromProtoNode : ProtoNodePtr → Except GoErr Node
| .null => .ok zeroNode
| .ptr (.mk i u w ne dl r onf) => do
  let w2 ← decodeWithBlob w
  let dl2 ← fromProtoNodeList dl
  let r2 ← decodeRetriesBlob r
  let onf2 ← fromProtoNodeList onf
  .ok (.mk i u w2 ne dl2 r2 onf2)
/-- The decode loops of `fromProtoNode`: each element is decoded to a node
value and its address appended, so every decoded child pointer is
non-nil (a nil element comes back as a pointer to the zero node). -/
def fromProtoNodeList : ProtoNodePtrList → Except GoErr NodePtrList
| .nil => .ok .nil
| .cons h t => do
  let n ← fromProtoNode h
  let t2 ← fromProtoNodeList t
  .ok (.cons (.ptr n) t2)
end

/-- `toProtoExecutionContext`: marshals the four dynamic fields into blobs
(total on the modelled payload domain) and carries `Secrets` natively. -/
def toProtoExecutionContext (ctx : ExecutionContext) : Except GoErr ProtoExecutionContext :=
  .ok { TriggerData := some (jsonOfOptObj ctx.TriggerData)
      , NodeOutputs := some (jsonOfOptObj ctx.NodeOutputs)
      , Secrets := ctx.Secrets
      , CurrentItem := some ctx.CurrentItem
      , FailureData := some (jsonOfOptObj ctx.FailureData) }

/-- `fromProtoExecutionContext`: each non-empty blob is unmarshalled into a
`map[string]interface\x7b\x7d` — including `CurrentItem`, whose local
variable is map-typed even though the struct field is
`interface\x7b\x7d`; the decoded map (nil map mapped to the null value)
is what lands in `CurrentItem`.  `Secrets` is copied natively. -/
def fromProtoExecutionContext (p : ProtoExecutionContext) : Except GoErr ExecutionContext := do
  let td ← decodeObjBlob p.TriggerData
  let nd ← decodeObjBlob p.NodeOutputs
  let ci ← decodeObjBlob p.CurrentItem
  let fd ← decodeObjBlob p.FailureData
  .ok { TriggerData := td, NodeOutputs := nd, Secrets := p.Secrets
      , CurrentItem := jsonOfOptObj ci, FailureData := fd }

/-- `toProtoValue`: `json.Marshal` of the result value (total on the
modelled domain, and never an empty blob). -/
def toProtoValue (v : Json) : Except GoErr (Option Json) := .ok (some v)

/-- `fromProtoValue`: the empty blob is the explicit absent-value marker
(nil, no error); otherwise unmarshal into `interface\x7b\x7d`, which
succeeds on any well-formed JSON. -/
def fromProtoValue : Option Json → Except GoErr Json
| none => .ok .null
| some j => .ok j

/-- `toProtoExecuteRequest`: the node is passed by address, so the envelope
node is always a non-nil pointer conversion. -/
def toProtoExecuteRequest (node : Node) (ctx : ExecutionContext) : Except GoErr ProtoExecuteRequest := do
  let pn ← toProtoNode (.ptr node)
  let pc ← toProtoExecutionContext ctx
  .ok { Node := pn, Context := pc }

/-- `fromProtoExecuteRequest`: decode the node, then the context; the first
failure aborts with its error. -/
def fromProtoExecuteRequest (req : ProtoExecuteRequest) : Except GoErr (Node × ExecutionContext) := do
  let n ← fromProtoNode req.Node
  let c ← fromProtoExecutionContext req.Context
  .ok (n, c)

/-- The `shared.NodeExecutor` interface a plugin implementation supplies. -/
structure NodeExecutor where
  Execute : Node → ExecutionContext → Except GoErr Json
  GetCapabilities : Except GoErr (List String)

/-- `NodeExecutorGRPCServer.Execute`: decode the request (wrapping a decode
failure with direction context), run the local implementation
(propagating its error verbatim), encode the result. -/
def NodeExecutorGRPCServer.Execute (impl : NodeExecutor) (req : ProtoExecuteRequest) :
    Except GoErr ProtoExecuteResponse :=
  match fromProtoExecuteRequest req with
  | .error e => .error (.wrap "failed to convert request from proto" e)
  | .ok (node, execCtx) =>
    match impl.Execute node execCtx with
    | .error e => .error e
    | .ok result =>
      match toProtoValue result with
      | .error e => .error (.wrap "failed to convert result to proto" e)
      | .ok pr => .ok { Result := pr }

/-- The gRPC unary transport between the two adapters: a handler that
returns an error surfaces on the caller side as a status error carrying
the handler error's message (the service process keeps running — the
handler returns a value either way). -/
def grpcUnary (handler : ProtoExecuteRequest → Except GoErr ProtoExecuteResponse)
    (req : ProtoExecuteRequest) : Except GoErr ProtoExecuteResponse :=
  match handler req with
  | .error e => .error (.remote e.message)
  | .ok resp => .ok resp

/-- `NodeExecutorGRPC.Execute` (caller-side proxy): encode the request
(wrapping an encode failure with direction context), issue the unary
call over the given transport, decode the result blob. -/
def NodeExecutorGRPC.Execute
    (transport : ProtoExecuteRequest → Except GoErr ProtoExecuteResponse)
    (node : Node) (ctx : ExecutionContext) : Except GoErr Json :=
  match toProtoExecuteRequest node ctx with
  | .error e => .error (.wrap "failed to convert request for gRPC" e)
  | .ok req =>
    match transport req with
    | .error e => .error e
    | .ok resp => fromProtoValue resp.Result

/-- `NodeExecutorPlugin.Server` (net/rpc entry point): returns no transport
object and the unsupported-transport error. -/
def NodeExecutorPlugin.Server : Option Unit × Option GoErr :=
  (none, some (.errorString "NetRPC is not supported"))

/-- `NodeExecutorPlugin.Client` (net/rpc entry point): returns no transport
object and the unsupported-transport error. -/
def NodeExecutorPlugin.Client : Option Unit × Option GoErr :=
  (none, some (.errorString "NetRPC is not supported"))

/-- `NodeExecutorPlugin.GRPCServer`: registers the gRPC server and returns
a nil error. -/
def NodeExecutorPlugin.GRPCServer : Option GoErr := none

/-- `NodeExecutorPlugin.GRPCClient`: returns a usable client object and a
nil error. -/
def NodeExecutorPlugin.GRPCClient : Option Unit × Option GoErr := (some (), none)

mutual
/-- Depth of a node tree: 1 for the node plus the deepest `Do`/`OnFailure`
subtree (a nil child pointer contributes 0). -/
def nodeDepth : Node → Nat
| .mk _ _ _ _ dl _ onf => 1 + max (listDepth dl) (listDepth onf)
def ptrDepth : NodePtr → Nat
| .null => 0
| .ptr n => nodeDepth n
def listDepth : NodePtrList → Nat
| .nil => 0
| .cons h t => max (ptrDepth h) (listDepth t)
end

mutual
/-- Size of a node tree (counts nodes, pointers and list cells): the bound
on the codec's recursion depth. -/
def nodeSize : Node → Nat
| .mk _ _ _ _ dl _ onf => 1 + listSize dl + listSize onf
def ptrSize : NodePtr → Nat
| .null => 1
| .ptr n => 1 + nodeSize n
def listSize : NodePtrList → Nat
| .nil => 1
| .cons h t => 1 + ptrSize h + listSize t
end

mutual
/-- Size of a proto node tree. -/
def protoNodeSize : ProtoNode → Nat
| .mk _ _ _ _ dl _ onf => 1 + protoListSize dl + protoListSize onf
def protoPtrSize : ProtoNodePtr → Nat
| .null => 1
| .ptr n => 1 + protoNodeSize n
def protoListSize : ProtoNodePtrList → Nat
| .nil => 1
| .cons h t => 1 + protoPtrSize h + protoListSize t
end

mutual
/-- A proper tree: every child pointer in `Do` and `OnFailure` is non-nil,
recursively — the `Node` trees the data model describes. -/
def properNode : Node → Bool
| .mk _ _ _ _ dl _ onf => properList dl && properList onf
def properList : NodePtrList → Bool
| .nil => true
| .cons .null _ => false
| .cons (.ptr n) t => properNode n && properList t
end

/-- Whether a dynamic value is accepted by an unmarshal into a
`map[string]interface\x7b\x7d` target (only `null` and objects are). -/
def isMapLike : Json → Bool
| .null => true
| .obj _ => true
| _ => false

mutual
/-- `toProtoNode` instrumented with explicit recursion fuel: one unit is
consumed per call, `none` means the fuel ran out before the recursion
finished.  Used to express that the source's unbounded recursion
terminates within `ptrSize` calls on any finite tree. -/
def toProtoNodeFuel : Nat → NodePtr → Option (Except GoErr ProtoNodePtr)
| 0, _ => none
| _ + 1, .null => some (.ok .null)
| f + 1, .ptr (.mk i u w ne dl r onf) =>
  match toProtoNodeListFuel f dl with
  | none => none
  | some (.error e) => some (.error e)
  | some (.ok dl2) =>
    match toProtoNodeListFuel f onf with
    | none => none
    | some (.error e) => some (.error e)
    | some (.ok onf2) =>
      some (.ok (.ptr (.mk i u (some (jsonOfOptObj w)) ne dl2 (some (marshalRetriesOpt r)) onf2)))
/-- Fuel-instrumented `toProtoNodeList`. -/
def toProtoNodeListFuel : Nat → NodePtrList → Option (Except GoErr ProtoNodePtrList)
| 0, _ => none
| _ + 1, .nil => some (.ok .nil)
| f + 1, .cons h t =>
  match toProtoNodeFuel f h with
  | none => none
  | some (.error e) => some (.error e)
  | some (.ok h2) =>
    match toProtoNodeListFuel f t with
    | none => none
    | some (.error e) => some (.error e)
    | some (.ok t2) => some (.ok (.cons h2 t2))
end

mutual
/-- `fromProtoNode` instrumented with explicit recursion fuel, mirroring
the decode steps in source order. -/
def fromProtoNodeFuel : Nat → ProtoNodePtr → Option (Except GoErr Node)
| 0, _ => none
| _ + 1, .null => some (.ok zeroNode)
| f + 1, .ptr (.mk i u w ne dl r onf) =>
  match decodeWithBlob w with
  | .error e => some (.error e)
  | .ok w2 =>
    match fromProtoNodeListFuel f dl with
    | none => none
    | some (.error e) => some (.error e)
    | some (.ok dl2) =>
      match decodeRetriesBlob r with
      | .error e => some (.error e)
      | .ok r2 =>
        match fromProtoNodeListFuel f onf with
        | none => none
        | some (.error e) => some (.error e)
        | some (.ok onf2) => some (.ok (.mk i u w2 ne dl2 r2 onf2))
/-- Fuel-instrumented `fromProtoNodeList`. -/
def fromProtoNodeListFuel : Nat → ProtoNodePtrList → Option (Except GoErr NodePtrList)
| 0, _ => none
| _ + 1, .nil => some (.ok .nil)
| f + 1, .cons h t =>
  match fromProtoNodeFuel f h with
  | none => none
  | some (.error e) => some (.error e)
  | some (.ok n) =>
    match fromProtoNodeListFuel f t with
    | none => none
    | some (.error e) => some (.error e)
    | some (.ok t2) => some (.ok (.cons (.ptr n) t2))
end

/-- Decoding the marshalled `With` map inverts the marshal exactly
(nil map → `null` → nil map; object → object). -/
theorem decodeWithBlob_marshal (w : Option JObj) :
    decodeWithBlob (some (jsonOfOptObj w)) = .ok w := by
  cases w <;> rfl

/-- Decoding the marshalled `Retries` policy inverts the marshal exactly:
the nil policy goes through the `null` sentinel, a present policy through
the generic object decode. -/
theorem decodeRetriesBlob_marshal (r : Option Retries) :
    decodeRetriesBlob (some (marshalRetriesOpt r)) = .ok r := by
  cases r with
  | none => rfl
  | some p => cases p; rfl

mutual
/-- Round-trip of a proper node through the codec: the encode succeeds and
the decode reproduces the node exactly. -/
theorem rtNode : (n : Node) → properNode n = true →
    ∃ pn, toProtoNode (.ptr n) = .ok (.ptr pn) ∧ fromProtoNode (.ptr pn) = .ok n
| .mk i u w ne dl r onf, h => by
  simp [properNode] at h
  obtain ⟨pdl, e1, d1⟩ := rtList dl h.1
  obtain ⟨ponf, e2, d2⟩ := rtList onf h.2
  refine ⟨.mk i u (some (jsonOfOptObj w)) ne pdl (some (marshalRetriesOpt r)) ponf, ?_, ?_⟩
  · simp only [toProtoNode, e1, e2]
    rfl
  · simp only [fromProtoNode, d1, d2, decodeWithBlob_marshal, decodeRetriesBlob_marshal]
    rfl
/-- Round-trip of a proper child list through the codec. -/
theorem rtList : (l : NodePtrList) → properList l = true →
    ∃ pl, toProtoNodeList l = .ok pl ∧ fromProtoNodeList pl = .ok l
| .nil, _ => ⟨.nil, rfl, rfl⟩
| .cons (.ptr n) t, h => by
  simp [properList] at h
  obtain ⟨pn, e1, d1⟩ := rtNode n h.1
  obtain ⟨pt, e2, d2⟩ := rtList t h.2
  exact ⟨.cons (.ptr pn) pt, by simp only [toProtoNodeList, e1, e2]; rfl,
    by simp only [fromProtoNodeList, d1, d2]; rfl⟩
end

/-- A leaf sample node (mirrors the spec's example sub-node). -/
def cNodeLeaf : Node := .mk "n1.1" "log" (some []) [] .nil none .nil

/-- A two-level sample tree (mirrors the spec's example scenario). -/
def cNode : Node :=
  .mk "n1" "http.get" (some [("url", .str "https://x")]) ["n0"]
    (.cons (.ptr cNodeLeaf) .nil) none .nil

/-- A minimal node value. -/
def sNode : Node := .mk "" "" none [] .nil none .nil

/-- An execution context with every field empty. -/
def emptyCtx : ExecutionContext :=
  { TriggerData := none, NodeOutputs := none, Secrets := []
  , CurrentItem := .null, FailureData := none }

/-- A proto context with every blob empty. -/
def emptyProtoCtx : ProtoExecutionContext :=
  { TriggerData := none, NodeOutputs := none, Secrets := []
  , CurrentItem := none, FailureData := none }

/-- A proto node whose `With` blob holds a JSON array: well-formed JSON that
is not an object and not `null`. -/
def badWithNode : ProtoNode := .mk "n" "u" (some (.arr [])) [] .nil none .nil

/-- A request whose node envelope has an empty `With` blob, which
`fromProtoNode` rejects as malformed. -/
def badReq : ProtoExecuteRequest :=
  { Node := .ptr (.mk "" "" none [] .nil none .nil), Context := emptyProtoCtx }

/-- An implementation whose `Execute` always fails with message `boom`. -/
def failImpl : NodeExecutor :=
  { Execute := fun _ _ => .error (.errorString "boom"), GetCapabilities := .ok [] }

/-- C9: encoding a nil `*Node` returns a nil envelope with no error, and
decoding a nil envelope returns the zero-valued `Node` with no error:
the node codec is total on nil inputs at both ends. -/
theorem nil_node_codec_total :
    toProtoNode .null = .ok .null ∧ fromProtoNode .null = .ok zeroNode :=
  ⟨rfl, rfl⟩

/-- C2: encoding an absent `Retries` policy and decoding yields absence,
encoding a present zero-count policy yields a present zero-count policy
(more generally any present policy round-trips), the decoder
special-cases the empty blob and the literal `null` sentinel to "no
policy", and a present zero-valued policy and absence stay distinct. -/
theorem retries_sentinel_roundtrip :
    decodeRetriesBlob (some (marshalRetriesOpt none)) = .ok none ∧
    decodeRetriesBlob (some (marshalRetriesOpt (some ⟨0, ""⟩))) = .ok (some ⟨0, ""⟩) ∧
    (∀ c d, decodeRetriesBlob (some (marshalRetriesOpt (some ⟨c, d⟩))) = .ok (some ⟨c, d⟩)) ∧
    decodeRetriesBlob none = .ok none ∧
    decodeRetriesBlob (some .null) = .ok none ∧
    (Except.ok (ε := GoErr) (some (⟨0, ""⟩ : Retries)) ≠ .ok none) := by
  refine ⟨rfl, rfl, fun c d => decodeRetriesBlob_marshal (some ⟨c, d⟩), rfl, rfl, ?_⟩
  intro h
  simp at h

/-- C3 (failing input): the decode side unmarshals the `CurrentItem` blob
into a `map[string]interface\x7b\x7d` even though the struct field is
`interface\x7b\x7d`, so a context whose `CurrentItem` is a JSON string
fails to decode after encoding instead of round-tripping. -/
theorem currentItem_decode_failure :
    (toProtoExecutionContext
        { TriggerData := none, NodeOutputs := none, Secrets := []
        , CurrentItem := .str "x", FailureData := none }).bind
      fromProtoExecutionContext
      = .error (.jsonTypeError "string" mapTargetType) := rfl

/-- The part of C3 the code does satisfy: contexts whose `CurrentItem` is a
string-keyed mapping or null round-trip exactly, with `Secrets` carried
natively. -/
theorem ctx_roundtrip_mapLike (ctx : ExecutionContext)
    (h : isMapLike ctx.CurrentItem = true) :
    (toProtoExecutionContext ctx).bind fromProtoExecutionContext = .ok ctx := by
  obtain ⟨td, nd, s, ci, fd⟩ := ctx
  cases ci <;> simp [isMapLike] at h <;>
    cases td <;> cases nd <;> cases fd <;> rfl

/-- Closed instance of `ctx_roundtrip_mapLike` at a concrete context. -/
theorem ctx_roundtrip_mapLike_witness :
    (toProtoExecutionContext
        { TriggerData := some [("a", .num 1)], NodeOutputs := none
        , Secrets := [("k", "v")], CurrentItem := .obj [("b", .bool true)]
        , FailureData := none }).bind fromProtoExecutionContext
      = .ok { TriggerData := some [("a", .num 1)], NodeOutputs := none
            , Secrets := [("k", "v")], CurrentItem := .obj [("b", .bool true)]
            , FailureData := none } :=
  ctx_roundtrip_mapLike _ rfl

/-- C6: an empty or absent opaque blob never causes a decode error: a
context whose four blobs are all empty decodes to the empty context,
each single empty context blob decodes to the nil map, and an empty
result blob decodes to the absent-value marker, not an error. -/
theorem empty_blobs_decode_without_error :
    (∀ s, fromProtoExecutionContext
        { TriggerData := none, NodeOutputs := none, Secrets := s
        , CurrentItem := none, FailureData := none }
      = .ok { TriggerData := none, NodeOutputs := none, Secrets := s
            , CurrentItem := .null, FailureData := none }) ∧
    decodeObjBlob none = .ok none ∧
    fromProtoValue none = .ok .null :=
  ⟨fun _ => rfl, rfl, rfl⟩

/-- C7: both legacy net/rpc plugin entry points fail with the explicit
unsupported-transport error and yield no transport object, while the
structured gRPC entry points succeed. -/
theorem netrpc_transport_always_rejected :
    NodeExecutorPlugin.Server = (none, some (.errorString "NetRPC is not supported")) ∧
    NodeExecutorPlugin.Client = (none, some (.errorString "NetRPC is not supported")) ∧
    NodeExecutorPlugin.GRPCServer = none ∧
    NodeExecutorPlugin.GRPCClient = (some (), none) :=
  ⟨rfl, rfl, rfl, rfl⟩

/-- C10: decoding a node envelope fails whenever the `With` blob holds
well-formed JSON whose top-level value is neither an object nor `null`
(array, string, number, bool): the decoder only accepts string-keyed
mappings for `With`. -/
theorem with_blob_rejects_nonobject_json (pn : ProtoNode) (j : Json)
    (hw : pn.With = some j) (hj : isMapLike j = false) :
    fromProtoNode (.ptr pn) = .error (.jsonTypeError (jsonKind j) mapTargetType) := by
  obtain ⟨i, u, w, ne, dl, r, onf⟩ := pn
  simp [ProtoNode.With] at hw
  subst hw
  cases j <;> simp [isMapLike] at hj <;> rfl

/-- Closed instance of C10 at a concrete envelope holding a JSON array. -/
theorem with_blob_rejects_nonobject_json_witness :
    fromProtoNode (.ptr badWithNode)
      = .error (.jsonTypeError (jsonKind (.arr [])) mapTargetType) :=
  with_blob_rejects_nonobject_json badWithNode (.arr []) rfl rfl

/-- C1: for every constructible acyclic `Node` tree (every child pointer in
`Do`/`OnFailure` a real node; empty `With`, `Needs`, `Do`, `OnFailure`
allowed), decoding the encoding succeeds and reproduces the tree exactly,
hence in particular preserves nesting depth exactly. -/
theorem node_roundtrip_exact (n : Node) (h : properNode n = true) :
    (toProtoNode (.ptr n)).bind fromProtoNode = .ok n ∧
    (∀ m, (toProtoNode (.ptr n)).bind fromProtoNode = .ok m → nodeDepth m = nodeDepth n) := by
  obtain ⟨pn, e1, d1⟩ := rtNode n h
  have hb : (toProtoNode (.ptr n)).bind fromProtoNode = .ok n := by
    rw [e1]
    exact d1
  refine ⟨hb, fun m hm => ?_⟩
  rw [hb] at hm
  cases hm
  rfl

/-- Closed instance of C1 at the spec's example two-node tree. -/
theorem node_roundtrip_exact_witness :
    (toProtoNode (.ptr cNode)).bind fromProtoNode = .ok cNode :=
  (node_roundtrip_exact cNode rfl).1

/-- C4 counterexample: a decode failure of the `With` blob is reported as
the bare library error — it carries the underlying cause but no wrapping
at all, hence no field name (`errContexts` of the reported error is
empty), refuting the claim that every conversion failure carries the
name of the field being converted. -/
theorem codec_error_carries_no_field_name :
    fromProtoNode (.ptr badWithNode) = .error (.jsonTypeError "array" mapTargetType) ∧
    errContexts (.jsonTypeError "array" mapTargetType) = [] :=
  ⟨rfl, rfl⟩

/-- C4 (amended): no conversion failure is swallowed or replaced by a
default — a failing `With` decode aborts `fromProtoNode` with the
underlying cause returned unchanged, and a request-decode failure makes
the callee adapter fail, wrapped with direction context (which names the
direction, not the field). -/
theorem conversion_error_propagation :
    (∀ (pn : ProtoNode) (e : GoErr), decodeWithBlob pn.With = .error e →
      fromProtoNode (.ptr pn) = .error e) ∧
    (∀ (impl : NodeExecutor) (req : ProtoExecuteRequest) (e : GoErr),
      fromProtoExecuteRequest req = .error e →
      NodeExecutorGRPCServer.Execute impl req
        = .error (.wrap "failed to convert request from proto" e)) := by
  constructor
  · intro pn e he
    obtain ⟨i, u, w, ne, dl, r, onf⟩ := pn
    simp [ProtoNode.With] at he
    simp [fromProtoNode, he]
    rfl
  · intro impl req e he
    simp [NodeExecutorGRPCServer.Execute, he]

/-- Closed instance of the amended C4 at a concrete malformed envelope and
request. -/
theorem conversion_error_propagation_witness :
    fromProtoNode (.ptr badWithNode)
      = .error (.jsonTypeError (jsonKind (.arr [])) mapTargetType) ∧
    NodeExecutorGRPCServer.Execute failImpl badReq
      = .error (.wrap "failed to convert request from proto"
          (.jsonMalformed "unexpected end of JSON input")) :=
  ⟨conversion_error_propagation.1 badWithNode _ rfl,
   conversion_error_propagation.2 failImpl badReq _ rfl⟩

/-- C5: when the locally supplied implementation fails `Execute`, the callee
adapter returns the failure (no crash of the service — the handler
returns a value), the transport surfaces it as a remote status error,
and the caller adapter returns that remote error carrying the original
message, not a decode error; likewise a decode failure of the incoming
request reaches the caller as a remote error carrying the wrapped decode
message. -/
theorem executor_failure_surfaces_as_remote_error :
    (∀ (impl : NodeExecutor) (node : Node) (ctx : ExecutionContext)
        (req : ProtoExecuteRequest) (n2 : Node) (c2 : ExecutionContext) (msg : String),
      toProtoExecuteRequest node ctx = .ok req →
      fromProtoExecuteRequest req = .ok (n2, c2) →
      impl.Execute n2 c2 = .error (.errorString msg) →
      NodeExecutorGRPC.Execute (grpcUnary (NodeExecutorGRPCServer.Execute impl)) node ctx
        = .error (.remote msg)) ∧
    (∀ (impl : NodeExecutor) (req : ProtoExecuteRequest) (e : GoErr),
      fromProtoExecuteRequest req = .error e →
      grpcUnary (NodeExecutorGRPCServer.Execute impl) req
        = .error (.remote ("failed to convert request from proto: " ++ e.message))) := by
  constructor
  · intro impl node ctx req n2 c2 msg h1 h2 h3
    simp [NodeExecutorGRPC.Execute, h1, grpcUnary,
      NodeExecutorGRPCServer.Execute, h2, h3, GoErr.message]
  · intro impl req e he
    simp [grpcUnary, NodeExecutorGRPCServer.Execute, he, GoErr.message]

/-- Closed instance of C5: a constantly failing implementation produces the
remote error `boom` end to end, and a malformed request produces a
remote error carrying the wrapped decode message. -/
theorem executor_failure_surfaces_as_remote_error_witness :
    NodeExecutorGRPC.Execute (grpcUnary (NodeExecutorGRPCServer.Execute failImpl))
        sNode emptyCtx = .error (.remote "boom") ∧
    grpcUnary (NodeExecutorGRPCServer.Execute failImpl) badReq
      = .error (.remote ("failed to convert request from proto: "
          ++ (GoErr.jsonMalformed "unexpected end of JSON input").message)) :=
  ⟨executor_failure_surfaces_as_remote_error.1 failImpl sNode emptyCtx
      _ sNode emptyCtx "boom" rfl rfl rfl,
   executor_failure_surfaces_as_remote_error.2 failImpl badReq _ rfl⟩

/-- The fuel-instrumented encoder agrees with the encoder whenever the fuel
is at least the tree size: the source recursion terminates within
`ptrSize` nested calls. -/
theorem toProtoNodeFuel_agrees : ∀ f : Nat,
    (∀ p, ptrSize p ≤ f → toProtoNodeFuel f p = some (toProtoNode p)) ∧
    (∀ l, listSize l ≤ f → toProtoNodeListFuel f l = some (toProtoNodeList l)) := by
  intro f
  induction f with
  | zero =>
    constructor
    · intro p hp
      exfalso
      cases p with
      | null => simp only [ptrSize] at hp; omega
      | ptr n => simp only [ptrSize] at hp; omega
    · intro l hl
      exfalso
      cases l with
      | nil => simp only [listSize] at hl; omega
      | cons h t => simp only [listSize] at hl; omega
  | succ f ih =>
    constructor
    · intro p hp
      cases p with
      | null => rfl
      | ptr n =>
        obtain ⟨i, u, w, ne, dl, r, onf⟩ := n
        simp only [ptrSize, nodeSize] at hp
        have hdl : listSize dl ≤ f := by omega
        have honf : listSize onf ≤ f := by omega
        simp only [toProtoNodeFuel, ih.2 dl hdl, ih.2 onf honf]
        cases e1 : toProtoNodeList dl with
        | error e => simp [toProtoNode, e1]; rfl
        | ok dl2 =>
          cases e2 : toProtoNodeList onf with
          | error e => simp [toProtoNode, e1, e2]; rfl
          | ok onf2 => simp [toProtoNode, e1, e2]; rfl
    · intro l hl
      cases l with
      | nil => rfl
      | cons h t =>
        simp only [listSize] at hl
        have hh : ptrSize h ≤ f := by omega
        have ht : listSize t ≤ f := by omega
        simp only [toProtoNodeListFuel, ih.1 h hh, ih.2 t ht]
        cases e1 : toProtoNode h with
        | error e => simp [toProtoNodeList, e1]; rfl
        | ok h2 =>
          cases e2 : toProtoNodeList t with
          | error e => simp [toProtoNodeList, e1, e2]; rfl
          | ok t2 => simp [toProtoNodeList, e1, e2]; rfl

/-- The fuel-instrumented decoder agrees with the decoder whenever the fuel
is at least the envelope tree size. -/
theorem fromProtoNodeFuel_agrees : ∀ g : Nat,
    (∀ q, protoPtrSize q ≤ g → fromProtoNodeFuel g q = some (fromProtoNode q)) ∧
    (∀ l, protoListSize l ≤ g → fromProtoNodeListFuel g l = some (fromProtoNodeList l)) := by
  intro g
  induction g with
  | zero =>
    constructor
    · intro q hq
      exfalso
      cases q with
      | null => simp only [protoPtrSize] at hq; omega
      | ptr n => simp only [protoPtrSize] at hq; omega
    · intro l hl
      exfalso
      cases l with
      | nil => simp only [protoListSize] at hl; omega
      | cons h t => simp only [protoListSize] at hl; omega
  | succ g ih =>
    constructor
    · intro q hq
      cases q with
      | null => rfl
      | ptr n =>
        obtain ⟨i, u, w, ne, dl, r, onf⟩ := n
        simp only [protoPtrSize, protoNodeSize] at hq
        have hdl : protoListSize dl ≤ g := by omega
        have honf : protoListSize onf ≤ g := by omega
        simp only [fromProtoNodeFuel, ih.2 dl hdl, ih.2 onf honf]
        cases ew : decodeWithBlob w with
        | error e => simp [fromProtoNode, ew]; rfl
        | ok w2 =>
          cases e1 : fromProtoNodeList dl with
          | error e => simp [fromProtoNode, ew, e1]; rfl
          | ok dl2 =>
            cases er : decodeRetriesBlob r with
            | error e => simp [fromProtoNode, ew, e1, er]; rfl
            | ok r2 =>
              cases e2 : fromProtoNodeList onf with
              | error e => simp [fromProtoNode, ew, e1, er, e2]; rfl
              | ok onf2 => simp [fromProtoNode, ew, e1, er, e2]; rfl
    · intro l hl
      cases l with
      | nil => rfl
      | cons h t =>
        simp only [protoListSize] at hl
        have hh : protoPtrSize h ≤ g := by omega
        have ht : protoListSize t ≤ g := by omega
        simp only [fromProtoNodeListFuel, ih.1 h hh, ih.2 t ht]
        cases e1 : fromProtoNode h with
        | error e => simp [fromProtoNodeList, e1]; rfl
        | ok n2 =>
          cases e2 : fromProtoNodeList t with
          | error e => simp [fromProtoNodeList, e1, e2]; rfl
          | ok t2 => simp [fromProtoNodeList, e1, e2]; rfl

/-- C8: the recursive codec functions terminate on every finite
strictly-tree-shaped input: instrumented with explicit fuel, both
directions complete (with the unlimited-recursion result) as soon as the
fuel reaches the tree size — finiteness/acyclicity of the inductive tree
is exactly what bounds the recursion. -/
theorem codec_recursion_bounded_by_tree_size
    (p : NodePtr) (q : ProtoNodePtr) (f g : Nat)
    (hp : ptrSize p ≤ f) (hq : protoPtrSize q ≤ g) :
    toProtoNodeFuel f p = some (toProtoNode p) ∧
    fromProtoNodeFuel g q = some (fromProtoNode q) :=
  ⟨(toProtoNodeFuel_agrees f).1 p hp, (fromProtoNodeFuel_agrees g).1 q hq⟩

/-- Closed instance of C8 at the spec's example tree and a concrete
envelope. -/
theorem codec_recursion_bounded_by_tree_size_witness :
    toProtoNodeFuel 9 (.ptr cNode) = some (toProtoNode (.ptr cNode)) ∧
    fromProtoNodeFuel 9 (.ptr badWithNode) = some (fromProtoNode (.ptr badWithNode)) :=
  codec_recursion_bounded_by_tree_size (.ptr cNode) (.ptr badWithNode) 9 9
    (by decide) (by decide)
